import Mathlib

/-
Verification development for the LifeOps v1 core
(src/lifeops/core/life_state.py, src/lifeops/neurons/focus_neuron.py,
src/run_lifeops_v1.py).

Modelling conventions:
- Python `datetime` values are modelled as integers counting seconds since an
  arbitrary epoch; `(a - b).total_seconds()` is integer subtraction, and
  `int(delta.total_seconds() // 60)` is `Int.fdiv _ 60` (Python `//` on a
  float whose value is integral is exact floor division, and `int` of an
  integral float is that integer).  `datetime.isoformat()` is modelled by
  `isoformat` below via the standard proleptic-Gregorian conversion.
  Python `datetime` objects are always truthy, and `Optional[datetime]`
  truthiness is `Option.isSome`.
- The Python float confidences 0.7 / 0.8 / 0.85 are modelled as the exact
  rationals 7/10, 4/5, 17/20; all comparisons the program performs on them
  behave identically.
- Mutable objects (the arbiter's candidate pool, the tick loop's local
  variables) are passed and returned explicitly.
- `Dict[str, Any]` (`preference_profile`, only ever seeded with one integer
  entry and never read by the core) is modelled as an association list over
  integers.
-/

/-- Left-pad the decimal digits of a nonnegative integer with zeros to width
`w` (helper for `isoformat`). -/
def padNum (w : Nat) (n : Int) : String :=
  let s := toString n.toNat
  String.mk (List.replicate (w - s.length) '0') ++ s

/-- Convert a day count (days since 1970-01-01) to a civil (year, month, day)
triple, the standard proleptic-Gregorian conversion that underlies Python's
`datetime`. -/
def civilFromDays (z0 : Int) : Int × Int × Int :=
  let z := z0 + 719468
  let era := z.fdiv 146097
  let doe := z - era * 146097
  let yoe := (doe - doe.fdiv 1460 + doe.fdiv 36524 - doe.fdiv 146096).fdiv 365
  let y := yoe + era * 400
  let doy := doe - (365 * yoe + yoe.fdiv 4 - yoe.fdiv 100)
  let mp := (5 * doy + 2).fdiv 153
  let d := doy - (153 * mp + 2).fdiv 5 + 1
  let m := mp + (if mp < 10 then 3 else -9)
  (y + (if m ≤ 2 then 1 else 0), m, d)

/-- Model of Python `datetime.isoformat()` for integer-second datetimes:
the string `YYYY-MM-DDTHH:MM:SS` (at whole-second granularity no fractional
part is emitted, as in Python). -/
def isoformat (t : Int) : String :=
  let days := t.fdiv 86400
  let sod := t.emod 86400
  let ymd := civilFromDays days
  padNum 4 ymd.1 ++ "-" ++ padNum 2 ymd.2.1 ++ "-" ++ padNum 2 ymd.2.2 ++ "T" ++
    padNum 2 (sod.fdiv 3600) ++ ":" ++ padNum 2 ((sod.emod 3600).fdiv 60) ++ ":" ++
    padNum 2 (sod.emod 60)

/-- life_state.py, `SceneState`: high-level description of what the
glasses/phone see. -/
structure SceneState where
  scene_type : String := "unknown"
  objects : List String := []
  people_present : String := "unknown"
  text_snippets : List String := []
  risk_flags : List String := []
deriving DecidableEq

/-- life_state.py, `OpenLoop`: an unresolved commitment or task. -/
structure OpenLoop where
  type : String
  label : String
  project : Option String := none
  due_by : Option Int := none
deriving DecidableEq

/-- life_state.py, `RecentSession`: a chunk of structured time (focus block,
workout, ...). -/
structure RecentSession where
  type : String
  project : Option String := none
  duration_min : Int := 0
  completed : Bool := false
  ended_at : Option Int := none
deriving DecidableEq

/-- life_state.py, `LifeState`: the core mutable state model. -/
structure LifeState where
  user_id : String
  timestamp : Int
  mode : String
  time_block : String
  location_hint : String
  scene : SceneState := {}
  primary_project : Option String := none
  secondary_projects : List String := []
  open_loops : List OpenLoop := []
  recent_sessions : List RecentSession := []
  energy_hint : String := "unknown"
  preference_profile : List (String × Int) := []
deriving DecidableEq

/-- life_state.py line 102: the sort key `s.ended_at or self.timestamp` used in
`last_session_of_type` (a `datetime` is always truthy, `None` is falsy, so
Python's `or` yields the end timestamp when present and `self.timestamp`
otherwise). -/
def sessionKey (st : LifeState) (s : RecentSession) : Int :=
  s.ended_at.getD st.timestamp

/-- Model of Python `max(candidates, key=...)` over a nonempty list `c :: cs`:
a left scan that replaces the current best only on a strictly greater key, so
on ties the earliest element wins — exactly `max`'s behaviour. -/
def maxByEndKey (st : LifeState) (c : RecentSession) (cs : List RecentSession) :
    RecentSession :=
  cs.foldl (fun best s => if sessionKey st best < sessionKey st s then s else best) c

/-- life_state.py lines 95-102, `LifeState.last_session_of_type`. -/
def LifeState.last_session_of_type (st : LifeState) (session_type : String) :
    Option RecentSession :=
  match st.recent_sessions.filter (fun s => s.type == session_type) with
  | [] => none
  | c :: cs => some (maxByEndKey st c cs)

/-- life_state.py lines 104-112, `LifeState.minutes_since_last_session`.
`not last.ended_at` is true exactly when `ended_at` is `None` (a `datetime` is
never falsy). -/
def LifeState.minutes_since_last_session (st : LifeState) (session_type : String) :
    Option Int :=
  match st.last_session_of_type session_type with
  | none => none
  | some last =>
    match last.ended_at with
    | none => none
    | some e => some ((st.timestamp - e).fdiv 60)

/-- life_state.py lines 114-132, `LifeState.with_updated_timestamp`: same
state, new timestamp (the Python code copies each list; list values are equal,
which is all that is observable here). -/
def LifeState.with_updated_timestamp (st : LifeState) (ts : Int) : LifeState :=
  { user_id := st.user_id
    timestamp := ts
    mode := st.mode
    time_block := st.time_block
    location_hint := st.location_hint
    scene := st.scene
    primary_project := st.primary_project
    secondary_projects := st.secondary_projects
    open_loops := st.open_loops
    recent_sessions := st.recent_sessions
    energy_hint := st.energy_hint
    preference_profile := st.preference_profile }

/-- focus_neuron.py, `NeuronSuggestion`. -/
structure NeuronSuggestion where
  neuron : String
  priority : String
  suggestion_type : String
  text : String
  expected_duration_min : Int
  project : Option String := none
  confidence : ℚ := 7/10
deriving DecidableEq

/-- focus_neuron.py, `FocusNeuron.__init__` configuration. -/
structure FocusNeuron where
  default_block_min : Int := 25
  short_block_min : Int := 15
  micro_block_min : Int := 5
  min_gap_between_focus_min : Int := 15
deriving DecidableEq

/-- Model of Python `str.lower()`: lower-case every character (structurally
recursive over the character list, semantically `String.toLower`). -/
def strLower (s : String) : String :=
  ⟨s.data.map Char.toLower⟩

/-- focus_neuron.py line 61: `(state.energy_hint or "unknown").lower()`
(Python `or` replaces the falsy empty string by `"unknown"`). -/
def energyOf (state : LifeState) : String :=
  strLower (if state.energy_hint = "" then "unknown" else state.energy_hint)

/-- focus_neuron.py lines 62-76: the (block length, priority, confidence,
phrasing verb) tier selected from the lowered energy hint; the `else` branch
covers high and unknown (and anything else). -/
def focusTier (n : FocusNeuron) (energy : String) : Int × String × ℚ × String :=
  if energy = "low" then
    (n.micro_block_min, "MEDIUM", 7/10, "Take a small bite out of")
  else if energy = "medium" then
    (n.short_block_min, "HIGH", 4/5, "Make solid progress on")
  else
    (n.default_block_min, "HIGH", 17/20, "Push forward on")

/-- focus_neuron.py lines 46-92, `FocusNeuron.suggest`.
`if not state.primary_project` is true for `None` and for the empty string
(Python truthiness of `Optional[str]`). -/
def FocusNeuron.suggest (n : FocusNeuron) (state : LifeState) :
    Option NeuronSuggestion :=
  if state.mode ≠ "work_deep" then none
  else
    match state.primary_project with
    | none => none
    | some project =>
      if project = "" then none
      else if (match state.minutes_since_last_session "focus" with
               | some m => decide (m < n.min_gap_between_focus_min)
               | none => false) then none
      else
        let tier := focusTier n (energyOf state)
        some { neuron := "FocusNeuron"
               priority := tier.2.1
               suggestion_type := "focus_block"
               text := tier.2.2.2 ++ " " ++ project ++
                 ": pick one small concrete subtask and work on it for " ++
                 toString tier.1 ++ " minutes."
               expected_duration_min := tier.1
               project := some project
               confidence := tier.2.2.1 }

/-- run_lifeops_v1.py, `SuggestedAction`. -/
structure SuggestedAction where
  binding_id : String
  suggestion : NeuronSuggestion
deriving DecidableEq

/-- run_lifeops_v1.py line 66, `ActionArbiterLife.PRIORITY_RANK` with the
`.get(s.priority, 0)` default. -/
def PRIORITY_RANK (p : String) : Int :=
  if p = "HIGH" then 3 else if p = "MEDIUM" then 2 else if p = "LOW" then 1 else 0

/-- Strict comparison of the composite sort key
`(PRIORITY_RANK.get(s.priority, 0), s.confidence)` (Python tuple order). -/
def keyLtb (a b : NeuronSuggestion) : Bool :=
  decide (PRIORITY_RANK a.priority < PRIORITY_RANK b.priority) ||
    (decide (PRIORITY_RANK a.priority = PRIORITY_RANK b.priority) &&
      decide (a.confidence < b.confidence))

/-- Propositional form of `keyLtb`. -/
def suggLt (a b : NeuronSuggestion) : Prop :=
  PRIORITY_RANK a.priority < PRIORITY_RANK b.priority ∨
    (PRIORITY_RANK a.priority = PRIORITY_RANK b.priority ∧ a.confidence < b.confidence)

/-- Non-strict comparison of the composite sort key. -/
def suggLe (a b : NeuronSuggestion) : Prop :=
  PRIORITY_RANK a.priority < PRIORITY_RANK b.priority ∨
    (PRIORITY_RANK a.priority = PRIORITY_RANK b.priority ∧ a.confidence ≤ b.confidence)

/-- Model of `sorted(self._candidates, key=..., reverse=True)[0]` over the
nonempty pool `c :: cs`: Python's sort is stable and `reverse=True` reverses
the comparison (not the list), so index 0 is the earliest element attaining
the maximal key; the scan below replaces the current best only on a strictly
greater key, which selects exactly that element. -/
def bestOf (c : NeuronSuggestion) (cs : List NeuronSuggestion) : NeuronSuggestion :=
  cs.foldl (fun best s => if keyLtb best s then s else best) c

/-- run_lifeops_v1.py, `ActionArbiterLife`: the mutable candidate pool. -/
structure ActionArbiterLife where
  _candidates : List NeuronSuggestion := []
deriving DecidableEq

/-- run_lifeops_v1.py lines 71-72, `ActionArbiterLife.request_action`. -/
def ActionArbiterLife.request_action (arb : ActionArbiterLife)
    (suggestion : NeuronSuggestion) : ActionArbiterLife :=
  ⟨arb._candidates ++ [suggestion]⟩

/-- run_lifeops_v1.py lines 74-87, `ActionArbiterLife.decide`: returns the
optional decision together with the arbiter state after the call (the pool is
cleared whenever a decision is produced). -/
def ActionArbiterLife.decide (arb : ActionArbiterLife) (state : LifeState) :
    Option SuggestedAction × ActionArbiterLife :=
  match arb._candidates with
  | [] => (none, arb)
  | c :: cs =>
    let best := bestOf c cs
    let binding_id := isoformat state.timestamp ++ "_" ++ best.suggestion_type
    (some { binding_id := binding_id, suggestion := best }, ⟨[]⟩)

/-- run_lifeops_v1.py lines 26-35, `MockScene.detect_scene`. -/
def mockScene : SceneState :=
  { scene_type := "home_office"
    objects := ["laptop", "notebook", "coffee_mug"]
    people_present := "solo"
    text_snippets := []
    risk_flags := ["indoors", "not_driving"] }

/-- run_lifeops_v1.py lines 100, `FocusNeuron()` with default configuration. -/
def focusNeuronDefault : FocusNeuron := {}

/-- run_lifeops_v1.py lines 107-122: the LifeState seeded at startup from
`MockCalendar.get_current_block()` and `MockScene.detect_scene()`. -/
def initState (start : Int) : LifeState :=
  { user_id := "tyler"
    timestamp := start
    mode := "work_deep"
    time_block := "afternoon"
    location_hint := "home_office"
    scene := mockScene
    primary_project := some "Project Horizon"
    secondary_projects := []
    open_loops := []
    recent_sessions := []
    energy_hint := "medium"
    preference_profile := [("nudges_per_hour_max", 4)] }

/-- The cross-tick variables of `run_test_mode`'s loop (run_lifeops_v1.py
lines 101, 127-129): the live state, the arbiter, and the three loop
variables. -/
structure LoopState where
  state : LifeState
  arbiter : ActionArbiterLife
  suggested_action : Option SuggestedAction
  focus_block_started : Option Int
  focus_block_duration_min : Option Int
deriving DecidableEq

/-- run_lifeops_v1.py lines 132-187: one iteration of the tick loop, as a
function of the wall-clock time `now` read at line 134 and the HUD's yes/no
answer `accepted` (only consulted when a decision is presented).
`if not focus_block_started` is `Option.isNone` (a `datetime` is never falsy),
and `elapsed_min >= focus_block_duration_min`, i.e.
`(now - t0)/60.0 >= dm`, is `60 * dm ≤ now - t0` exactly. -/
def tickStep (now : Int) (accepted : Bool) (ls : LoopState) : LoopState :=
  let state := ls.state.with_updated_timestamp now
  let arb1 :=
    if ls.focus_block_started.isNone then
      match focusNeuronDefault.suggest state with
      | some s => ls.arbiter.request_action s
      | none => ls.arbiter
    else ls.arbiter
  let dres := arb1.decide state
  let acc3 : Option SuggestedAction × Option Int × Option Int :=
    match dres.1, ls.focus_block_started with
    | some d, none =>
      if accepted then (some d, some now, some d.suggestion.expected_duration_min)
      else (none, ls.focus_block_started, ls.focus_block_duration_min)
    | _, _ =>
      (ls.suggested_action, ls.focus_block_started, ls.focus_block_duration_min)
  match acc3.2.1, acc3.2.2 with
  | some t0, some dm =>
    if 60 * dm ≤ now - t0 then
      { state := { state with recent_sessions := state.recent_sessions ++
          [{ type := "focus"
             project := state.primary_project
             duration_min := dm
             completed := true
             ended_at := some now }] }
        arbiter := dres.2
        suggested_action := none
        focus_block_started := none
        focus_block_duration_min := none }
    else
      { state := state, arbiter := dres.2, suggested_action := acc3.1
        focus_block_started := acc3.2.1, focus_block_duration_min := acc3.2.2 }
  | _, _ =>
    { state := state, arbiter := dres.2, suggested_action := acc3.1
      focus_block_started := acc3.2.1, focus_block_duration_min := acc3.2.2 }

/-- The loop variables as initialised before the first tick
(run_lifeops_v1.py lines 101, 109, 127-129). -/
def initLoopState (start : Int) : LoopState :=
  { state := initState start
    arbiter := ⟨[]⟩
    suggested_action := none
    focus_block_started := none
    focus_block_duration_min := none }

/-- Run the tick loop from startup over a list of (tick time, HUD answer)
inputs. -/
def runTicks (start : Int) (inputs : List (Int × Bool)) : LoopState :=
  inputs.foldl (fun ls inp => tickStep inp.1 inp.2 ls) (initLoopState start)

/-- The invariant the tick loop maintains across ticks: the primary project is
the calendar-seeded one, the candidate pool is empty between ticks, and while
a focus block is in progress the accepted decision is retained with matching
project and duration. -/
def LoopInv (ls : LoopState) : Prop :=
  ls.state.primary_project = some "Project Horizon" ∧
  ls.arbiter = ⟨[]⟩ ∧
  ∀ t0, ls.focus_block_started = some t0 →
    ∃ a, ls.suggested_action = some a ∧
      a.suggestion.project = some "Project Horizon" ∧
      ls.focus_block_duration_min = some a.suggestion.expected_duration_min

/-- Replace only the energy hint of a state (used to express the
monotonicity clause of the focus tier table). -/
def withEnergy (st : LifeState) (e : String) : LifeState :=
  { st with energy_hint := e }

/-- A minimal sample state (concrete inputs for witnesses). -/
def sampleState : LifeState :=
  { user_id := "u"
    timestamp := 0
    mode := "work_deep"
    time_block := "afternoon"
    location_hint := "home_office" }

/-- Concrete input refuting claim C1: a completed focus session (ended at
400) together with a still-open focus session (no end timestamp) at state
time 1000. -/
def c1cex : LifeState :=
  { user_id := "u"
    timestamp := 1000
    mode := "work_deep"
    time_block := "afternoon"
    location_hint := "home_office"
    recent_sessions :=
      [{ type := "focus", project := some "P", duration_min := 10,
         completed := true, ended_at := some 400 },
       { type := "focus", project := some "P", duration_min := 0,
         completed := false, ended_at := none }] }

/-- Concrete input for the witness of the amended claim C1: two completed
focus sessions, ended at 400 and 520, at state time 1000. -/
def c1wit : LifeState :=
  { user_id := "u"
    timestamp := 1000
    mode := "work_deep"
    time_block := "afternoon"
    location_hint := "home_office"
    recent_sessions :=
      [{ type := "focus", project := some "P", duration_min := 10,
         completed := true, ended_at := some 400 },
       { type := "focus", project := some "P", duration_min := 5,
         completed := true, ended_at := some 520 }] }

/-- Concrete input refuting claim C5: deep-work mode, a *set but empty*
primary project, no recent sessions. -/
def c5cex : LifeState :=
  { user_id := "u"
    timestamp := 0
    mode := "work_deep"
    time_block := "afternoon"
    location_hint := "home_office"
    primary_project := some ""
    energy_hint := "medium" }

/-- Submit a batch of suggestions to the arbiter in order, one
`request_action` call each. -/
def requestAll (arb : ActionArbiterLife) (l : List NeuronSuggestion) :
    ActionArbiterLife :=
  l.foldl ActionArbiterLife.request_action arb

/-- Build a plain suggestion with a given priority and confidence (concrete
inputs for witnesses). -/
def sugg (p : String) (conf : ℚ) : NeuronSuggestion :=
  { neuron := "n", priority := p, suggestion_type := "focus_block", text := "x",
    expected_duration_min := 10, project := none, confidence := conf }

/-- A deep-work state with a medium energy hint and a non-empty project
(concrete input for witnesses). -/
def c5wit : LifeState :=
  { user_id := "u"
    timestamp := 0
    mode := "work_deep"
    time_block := "afternoon"
    location_hint := "home_office"
    primary_project := some "Project Horizon"
    energy_hint := "medium" }

/-! ## Helper lemmas -/

/-- Appending to a fixed string on the left is injective. -/
theorem string_append_left_cancel {s t1 t2 : String} (h : s ++ t1 = s ++ t2) :
    t1 = t2 := by
  have h2 := congrArg String.data h
  simp only [String.data_append] at h2
  exact String.ext (List.append_cancel_left h2)

/-! ## Claims -/

/-- C9: for every LifeState `s` and timestamp `ts`,
`with_updated_timestamp` returns a state whose timestamp is `ts` and whose
every other field equals the corresponding field of `s`. -/
theorem C9_with_updated_timestamp_frame (s : LifeState) (ts : Int) :
    (s.with_updated_timestamp ts).timestamp = ts ∧
    (s.with_updated_timestamp ts).user_id = s.user_id ∧
    (s.with_updated_timestamp ts).mode = s.mode ∧
    (s.with_updated_timestamp ts).time_block = s.time_block ∧
    (s.with_updated_timestamp ts).location_hint = s.location_hint ∧
    (s.with_updated_timestamp ts).scene = s.scene ∧
    (s.with_updated_timestamp ts).primary_project = s.primary_project ∧
    (s.with_updated_timestamp ts).secondary_projects = s.secondary_projects ∧
    (s.with_updated_timestamp ts).open_loops = s.open_loops ∧
    (s.with_updated_timestamp ts).recent_sessions = s.recent_sessions ∧
    (s.with_updated_timestamp ts).energy_hint = s.energy_hint ∧
    (s.with_updated_timestamp ts).preference_profile = s.preference_profile :=
  ⟨rfl, rfl, rfl, rfl, rfl, rfl, rfl, rfl, rfl, rfl, rfl, rfl⟩

/-- C7: calling `decide` on an arbiter whose pool is empty returns nothing
and leaves the arbiter unchanged (in particular the pool stays empty); in
this total model no exception can be raised. -/
theorem C7_decide_empty_pool (arb : ActionArbiterLife) (st : LifeState)
    (h : arb._candidates = []) : arb.decide st = (none, arb) := by
  cases arb with
  | mk cands =>
    cases h
    rfl

/-- Witness for C7 at a concrete empty arbiter and state. -/
theorem C7_decide_empty_pool_witness :
    ActionArbiterLife.decide ⟨[]⟩ sampleState = (none, (⟨[]⟩ : ActionArbiterLife)) :=
  C7_decide_empty_pool ⟨[]⟩ sampleState rfl

/-- C6: a `decide` call on a nonempty pool returns a result and empties the
pool, so an immediately following `decide` on the resulting arbiter returns
nothing; no suggestion persists inside the arbiter across decisions. -/
theorem C6_decide_clears_pool (c : NeuronSuggestion) (cs : List NeuronSuggestion)
    (st : LifeState) :
    (∃ a, (ActionArbiterLife.decide ⟨c :: cs⟩ st).1 = some a) ∧
    ((ActionArbiterLife.decide ⟨c :: cs⟩ st).2)._candidates = [] ∧
    ∀ st2 : LifeState,
      ((ActionArbiterLife.decide ⟨c :: cs⟩ st).2).decide st2 =
        (none, (ActionArbiterLife.decide ⟨c :: cs⟩ st).2) :=
  ⟨⟨_, rfl⟩, rfl, fun _ => rfl⟩

/-- C8: every SuggestedAction returned by `decide` carries a binding
identifier equal to the ISO-format string of the state timestamp, an
underscore, and the winning suggestion's kind; at any fixed decision instant
this identifier is injective in the suggestion kind, hence unique per
decision instant. -/
theorem C8_binding_id (c : NeuronSuggestion) (cs : List NeuronSuggestion)
    (st : LifeState) :
    ∃ a, (ActionArbiterLife.decide ⟨c :: cs⟩ st).1 = some a ∧
      a.binding_id = isoformat st.timestamp ++ "_" ++ a.suggestion.suggestion_type ∧
      ∀ k1 k2 : String,
        isoformat st.timestamp ++ "_" ++ k1 = isoformat st.timestamp ++ "_" ++ k2 →
          k1 = k2 := by
  refine ⟨_, rfl, rfl, ?_⟩
  intro k1 k2 h
  rw [String.append_assoc, String.append_assoc] at h
  exact string_append_left_cancel (string_append_left_cancel h)

/-- The boolean key comparison agrees with its propositional form. -/
theorem keyLtb_iff {a b : NeuronSuggestion} : keyLtb a b = true ↔ suggLt a b := by
  simp [keyLtb, suggLt]

/-- The composite key order is reflexive in its non-strict form. -/
theorem suggLe_refl (a : NeuronSuggestion) : suggLe a a :=
  Or.inr ⟨rfl, le_refl _⟩

/-- A strictly smaller key is also non-strictly smaller. -/
theorem suggLe_of_lt {a b : NeuronSuggestion} (h : suggLt a b) : suggLe a b := by
  rcases h with h | ⟨e, l⟩
  · exact Or.inl h
  · exact Or.inr ⟨e, le_of_lt l⟩

/-- Transitivity of the non-strict key order. -/
theorem suggLe_trans {a b c : NeuronSuggestion} (h1 : suggLe a b) (h2 : suggLe b c) :
    suggLe a c := by
  rcases h1 with h1 | ⟨e1, l1⟩ <;> rcases h2 with h2 | ⟨e2, l2⟩
  · exact Or.inl (lt_trans h1 h2)
  · exact Or.inl (e2 ▸ h1)
  · exact Or.inl (e1 ▸ h2)
  · exact Or.inr ⟨e1.trans e2, le_trans l1 l2⟩

/-- A strict key comparison composes with a non-strict one. -/
theorem suggLt_le_trans {a b c : NeuronSuggestion} (h1 : suggLt a b) (h2 : suggLe b c) :
    suggLt a c := by
  rcases h1 with h1 | ⟨e1, l1⟩ <;> rcases h2 with h2 | ⟨e2, l2⟩
  · exact Or.inl (lt_trans h1 h2)
  · exact Or.inl (e2 ▸ h1)
  · exact Or.inl (e1 ▸ h2)
  · exact Or.inr ⟨e1.trans e2, lt_of_lt_of_le l1 l2⟩

/-- A non-strict key comparison composes with a strict one. -/
theorem suggLe_lt_trans {a b c : NeuronSuggestion} (h1 : suggLe a b) (h2 : suggLt b c) :
    suggLt a c := by
  rcases h1 with h1 | ⟨e1, l1⟩ <;> rcases h2 with h2 | ⟨e2, l2⟩
  · exact Or.inl (lt_trans h1 h2)
  · exact Or.inl (e2 ▸ h1)
  · exact Or.inl (e1 ▸ h2)
  · exact Or.inr ⟨e1.trans e2, lt_of_le_of_lt l1 l2⟩

/-- Totality: if `a` is not strictly below `b` then `b` is non-strictly below
`a`. -/
theorem suggLe_of_not_lt {a b : NeuronSuggestion} (h : ¬ suggLt a b) : suggLe b a := by
  unfold suggLt at h
  push_neg at h
  obtain ⟨h1, h2⟩ := h
  rcases eq_or_lt_of_le h1 with he | hlt
  · exact Or.inr ⟨he, h2 he.symm⟩
  · exact Or.inl hlt

/-- Totality, boolean form. -/
theorem suggLe_of_ltb_false {a b : NeuronSuggestion} (h : keyLtb a b = false) :
    suggLe b a :=
  suggLe_of_not_lt (fun hc => by rw [keyLtb_iff.mpr hc] at h; cases h)

/-- Unfolding `bestOf` over a cons cell. -/
theorem bestOf_cons (c s : NeuronSuggestion) (cs : List NeuronSuggestion) :
    bestOf c (s :: cs) = bestOf (if keyLtb c s then s else c) cs := rfl

/-- The scanned best is a key upper bound of the whole pool. -/
theorem bestOf_le (c : NeuronSuggestion) (cs : List NeuronSuggestion) :
    ∀ x ∈ c :: cs, suggLe x (bestOf c cs) := by
  induction cs generalizing c with
  | nil =>
    intro x hx
    rw [List.mem_singleton] at hx
    subst hx
    exact suggLe_refl x
  | cons s rest ih =>
    intro x hx
    rw [bestOf_cons]
    have hc : suggLe c (if keyLtb c s then s else c) := by
      by_cases h : keyLtb c s = true
      · rw [if_pos h]; exact suggLe_of_lt (keyLtb_iff.mp h)
      · rw [if_neg h]; exact suggLe_refl c
    have hs : suggLe s (if keyLtb c s then s else c) := by
      by_cases h : keyLtb c s = true
      · rw [if_pos h]; exact suggLe_refl s
      · rw [if_neg h]
        exact suggLe_of_ltb_false (by simpa using h)
    have hbest := ih (if keyLtb c s then s else c) (if keyLtb c s then s else c)
      (List.mem_cons_self _ _)
    rcases List.mem_cons.mp hx with rfl | hx2
    · exact suggLe_trans hc hbest
    · rcases List.mem_cons.mp hx2 with rfl | hx3
      · exact suggLe_trans hs hbest
      · exact ih _ x (List.mem_cons_of_mem _ hx3)

/-- The scanned best is the earliest pool element attaining the maximal key:
the pool splits around it and everything submitted before it has a strictly
smaller key. -/
theorem bestOf_first (c : NeuronSuggestion) (cs : List NeuronSuggestion) :
    ∃ l1 l2, c :: cs = l1 ++ bestOf c cs :: l2 ∧
      ∀ x ∈ l1, suggLt x (bestOf c cs) := by
  induction cs generalizing c with
  | nil => exact ⟨[], [], rfl, by simp⟩
  | cons s rest ih =>
    rw [bestOf_cons]
    by_cases h : keyLtb c s = true
    · rw [if_pos h]
      obtain ⟨l1, l2, heq, hlt⟩ := ih s
      refine ⟨c :: l1, l2, ?_, ?_⟩
      · simpa using congrArg (List.cons c) heq
      · intro x hx
        rcases List.mem_cons.mp hx with rfl | hx2
        · exact suggLt_le_trans (keyLtb_iff.mp h)
            (bestOf_le s rest s (List.mem_cons_self s rest))
        · exact hlt x hx2
    · rw [if_neg h]
      obtain ⟨l1, l2, heq, hlt⟩ := ih c
      cases l1 with
      | nil =>
        injection heq with h1 h2
        refine ⟨[], s :: l2, ?_, by simp⟩
        rw [← h1, ← h2]
        rfl
      | cons y l1' =>
        injection heq with h1 h2
        subst h1
        refine ⟨c :: s :: l1', l2, ?_, ?_⟩
        · simpa using congrArg (fun l => c :: s :: l) h2
        · intro x hx
          have hcb : suggLt c (bestOf c rest) := hlt c (List.mem_cons_self _ _)
          rcases List.mem_cons.mp hx with rfl | hx2
          · exact hcb
          · rcases List.mem_cons.mp hx2 with rfl | hx3
            · exact suggLe_lt_trans (suggLe_of_ltb_false (by simpa using h)) hcb
            · exact hlt x (List.mem_cons_of_mem _ hx3)

/-- Submitting a batch appends it to the pool in submission order. -/
theorem requestAll_candidates (arb : ActionArbiterLife) (l : List NeuronSuggestion) :
    (requestAll arb l)._candidates = arb._candidates ++ l := by
  induction l generalizing arb with
  | nil => simp [requestAll]
  | cons s rest ih =>
    have : requestAll arb (s :: rest) = requestAll (arb.request_action s) rest := rfl
    rw [this, ih]
    simp [ActionArbiterLife.request_action]

/-- C3: for every non-empty candidate pool, `decide` returns a suggestion
from the pool whose composite key `(priority_rank, confidence)` is maximal
(priority_rank maps HIGH to 3, MEDIUM to 2, LOW to 1, anything else to 0);
in particular a HIGH-priority candidate beats a LOW-priority one regardless
of confidences, and of two HIGH-priority candidates the strictly more
confident one wins. -/
theorem C3_decide_maximal (st : LifeState) :
    (∀ (c : NeuronSuggestion) (cs : List NeuronSuggestion),
      ∃ a, (ActionArbiterLife.decide ⟨c :: cs⟩ st).1 = some a ∧
        a.suggestion ∈ c :: cs ∧ ∀ x ∈ c :: cs, suggLe x a.suggestion) ∧
    (∀ s1 s2 : NeuronSuggestion, s1.priority = "LOW" → s2.priority = "HIGH" →
      (ActionArbiterLife.decide ⟨[s1, s2]⟩ st).1.map SuggestedAction.suggestion
          = some s2 ∧
      (ActionArbiterLife.decide ⟨[s2, s1]⟩ st).1.map SuggestedAction.suggestion
          = some s2) ∧
    (∀ s1 s2 : NeuronSuggestion, s1.priority = "HIGH" → s2.priority = "HIGH" →
      s1.confidence < s2.confidence →
      (ActionArbiterLife.decide ⟨[s1, s2]⟩ st).1.map SuggestedAction.suggestion
          = some s2 ∧
      (ActionArbiterLife.decide ⟨[s2, s1]⟩ st).1.map SuggestedAction.suggestion
          = some s2) := by
  refine ⟨?_, ?_, ?_⟩
  · intro c cs
    refine ⟨_, rfl, ?_, bestOf_le c cs⟩
    obtain ⟨l1, l2, heq, -⟩ := bestOf_first c cs
    rw [heq]
    exact List.mem_append_right l1 (List.mem_cons_self _ _)
  · intro s1 s2 h1 h2
    have hlt : keyLtb s1 s2 = true := by
      simp [keyLtb, PRIORITY_RANK, h1, h2]
    have hnlt : keyLtb s2 s1 = false := by
      simp [keyLtb, PRIORITY_RANK, h1, h2]
    constructor
    · show (ActionArbiterLife.decide ⟨[s1, s2]⟩ st).1.map SuggestedAction.suggestion
        = some s2
      simp [ActionArbiterLife.decide, bestOf, hlt]
    · simp [ActionArbiterLife.decide, bestOf, hnlt]
  · intro s1 s2 h1 h2 hconf
    have hq : ¬ s2.confidence < s1.confidence := not_lt.mpr (le_of_lt hconf)
    have hlt : keyLtb s1 s2 = true := by
      simp [keyLtb, PRIORITY_RANK, h1, h2, hconf]
    have hnlt : keyLtb s2 s1 = false := by
      simp [keyLtb, PRIORITY_RANK, h1, h2, hq]
    constructor
    · simp [ActionArbiterLife.decide, bestOf, hlt]
    · simp [ActionArbiterLife.decide, bestOf, hnlt]

/-- Witness for C3's priority and confidence clauses at concrete candidate
pairs. -/
theorem C3_decide_maximal_witness :
    ((ActionArbiterLife.decide ⟨[sugg "LOW" (9/10), sugg "HIGH" (1/10)]⟩
        sampleState).1.map SuggestedAction.suggestion = some (sugg "HIGH" (1/10)) ∧
     (ActionArbiterLife.decide ⟨[sugg "HIGH" (1/10), sugg "LOW" (9/10)]⟩
        sampleState).1.map SuggestedAction.suggestion = some (sugg "HIGH" (1/10))) ∧
    ((ActionArbiterLife.decide ⟨[sugg "HIGH" (4/5), sugg "HIGH" (9/10)]⟩
        sampleState).1.map SuggestedAction.suggestion = some (sugg "HIGH" (9/10)) ∧
     (ActionArbiterLife.decide ⟨[sugg "HIGH" (9/10), sugg "HIGH" (4/5)]⟩
        sampleState).1.map SuggestedAction.suggestion = some (sugg "HIGH" (9/10))) :=
  ⟨(C3_decide_maximal sampleState).2.1 (sugg "LOW" (9/10)) (sugg "HIGH" (1/10))
      rfl rfl,
   (C3_decide_maximal sampleState).2.2 (sugg "HIGH" (4/5)) (sugg "HIGH" (9/10))
      rfl rfl (by norm_num [sugg])⟩

/-- C10: when several candidates share the maximal composite key, `decide`
returns the one submitted earliest via `request_action`: the pool (in
submission order) splits as `l1 ++ winner :: l2` where everything in `l1` has
a strictly smaller key and the winner's key is maximal over the whole pool. -/
theorem C10_tie_break_insertion_order (c : NeuronSuggestion)
    (cs : List NeuronSuggestion) (st : LifeState) :
    ∃ a l1 l2,
      ((requestAll ⟨[]⟩ (c :: cs)).decide st).1 = some a ∧
      c :: cs = l1 ++ a.suggestion :: l2 ∧
      (∀ x ∈ l1, suggLt x a.suggestion) ∧
      ∀ x ∈ c :: cs, suggLe x a.suggestion := by
  have harb : requestAll ⟨[]⟩ (c :: cs) = ⟨c :: cs⟩ := by
    have h := requestAll_candidates ⟨[]⟩ (c :: cs)
    cases hr : requestAll (⟨[]⟩ : ActionArbiterLife) (c :: cs) with
    | mk l =>
      rw [hr] at h
      simp at h
      rw [h]
  obtain ⟨l1, l2, heq, hlt⟩ := bestOf_first c cs
  rw [harb]
  exact ⟨_, l1, l2, rfl, heq, hlt, bestOf_le c cs⟩

/-- The session scanned as latest is one of the candidates. -/
theorem maxByEndKey_mem (st : LifeState) (c : RecentSession)
    (cs : List RecentSession) : maxByEndKey st c cs ∈ c :: cs := by
  induction cs generalizing c with
  | nil => exact List.mem_singleton.mpr rfl
  | cons s rest ih =>
    have h := ih (if sessionKey st c < sessionKey st s then s else c)
    have hstep : maxByEndKey st c (s :: rest)
        = maxByEndKey st (if sessionKey st c < sessionKey st s then s else c) rest :=
      rfl
    rw [hstep]
    rcases List.mem_cons.mp h with he | hm
    · rw [he]
      by_cases hlt : sessionKey st c < sessionKey st s
      · rw [if_pos hlt]
        exact List.mem_cons_of_mem _ (List.mem_cons_self _ _)
      · rw [if_neg hlt]
        exact List.mem_cons_self _ _
    · exact List.mem_cons_of_mem _ (List.mem_cons_of_mem _ hm)

/-- The session scanned as latest has the maximal key among the candidates. -/
theorem maxByEndKey_key_ge (st : LifeState) (c : RecentSession)
    (cs : List RecentSession) :
    ∀ x ∈ c :: cs, sessionKey st x ≤ sessionKey st (maxByEndKey st c cs) := by
  induction cs generalizing c with
  | nil =>
    intro x hx
    rw [List.mem_singleton] at hx
    subst hx
    exact le_refl _
  | cons s rest ih =>
    intro x hx
    have hstep : maxByEndKey st c (s :: rest)
        = maxByEndKey st (if sessionKey st c < sessionKey st s then s else c) rest :=
      rfl
    rw [hstep]
    have hacc := ih (if sessionKey st c < sessionKey st s then s else c)
      (if sessionKey st c < sessionKey st s then s else c) (List.mem_cons_self _ _)
    have hc : sessionKey st c
        ≤ sessionKey st (if sessionKey st c < sessionKey st s then s else c) := by
      by_cases hlt : sessionKey st c < sessionKey st s
      · rw [if_pos hlt]; exact le_of_lt hlt
      · rw [if_neg hlt]
    have hs : sessionKey st s
        ≤ sessionKey st (if sessionKey st c < sessionKey st s then s else c) := by
      by_cases hlt : sessionKey st c < sessionKey st s
      · rw [if_pos hlt]
      · rw [if_neg hlt]; exact le_of_not_lt hlt
    rcases List.mem_cons.mp hx with rfl | hx2
    · exact le_trans hc hacc
    · rcases List.mem_cons.mp hx2 with rfl | hx3
      · exact le_trans hs hacc
      · exact ih _ x (List.mem_cons_of_mem _ hx3)

/-- C1 counterexample: `c1cex` has a focus session with a defined end
timestamp, yet `minutes_since_last_session "focus"` returns nothing, because
the open focus session (no end timestamp) is keyed at the current state time
and wins the latest-session scan; the claim's biconditional and its value
clause both fail here (the claim would demand the value `some 10`). -/
theorem C1_counterexample :
    (∃ s ∈ c1cex.recent_sessions, s.type = "focus" ∧ s.ended_at ≠ none) ∧
    c1cex.minutes_since_last_session "focus" = none :=
  ⟨by decide, rfl⟩

/-- C1 as amended: sessions of type T without an end timestamp are keyed at
the current state time rather than ignored, so `minutes_since_last_session T`
returns nothing when no type-T session has a defined end timestamp, and also
when some type-T session is missing its end timestamp while every defined
type-T end timestamp is strictly before `state.timestamp`; when every type-T
session has a defined end timestamp the original claim holds: the result is
`floor((state.timestamp - latest end)/60 s)` for the latest type-T end
timestamp, and it is non-negative whenever `state.timestamp` is at or after
that end timestamp. -/
theorem C1_minutes_since_last_session (st : LifeState) (ty : String) :
    ((∀ s ∈ st.recent_sessions, s.type = ty → s.ended_at = none) →
      st.minutes_since_last_session ty = none) ∧
    ((∃ s ∈ st.recent_sessions, s.type = ty ∧ s.ended_at = none) →
     (∀ s ∈ st.recent_sessions, s.type = ty → ∀ e, s.ended_at = some e →
        e < st.timestamp) →
      st.minutes_since_last_session ty = none) ∧
    ((∃ s ∈ st.recent_sessions, s.type = ty) →
     (∀ s ∈ st.recent_sessions, s.type = ty → s.ended_at ≠ none) →
      ∃ e, st.minutes_since_last_session ty = some ((st.timestamp - e).fdiv 60) ∧
        (∃ s ∈ st.recent_sessions, s.type = ty ∧ s.ended_at = some e) ∧
        (∀ s ∈ st.recent_sessions, s.type = ty → ∀ e2, s.ended_at = some e2 →
          e2 ≤ e) ∧
        (e ≤ st.timestamp → 0 ≤ (st.timestamp - e).fdiv 60)) := by
  have hmem_filter : ∀ s : RecentSession,
      s ∈ st.recent_sessions.filter (fun s => s.type == ty) ↔
        s ∈ st.recent_sessions ∧ s.type = ty := by
    intro s
    rw [List.mem_filter]
    simp
  cases hL : st.recent_sessions.filter (fun s => s.type == ty) with
  | nil =>
    have hnofocus : ∀ s ∈ st.recent_sessions, s.type ≠ ty := by
      intro s hs hty
      have : s ∈ st.recent_sessions.filter (fun s => s.type == ty) :=
        (hmem_filter s).mpr ⟨hs, hty⟩
      rw [hL] at this
      cases this
    have hnone : st.minutes_since_last_session ty = none := by
      unfold LifeState.minutes_since_last_session LifeState.last_session_of_type
      rw [hL]
    refine ⟨fun _ => hnone, fun _ _ => hnone, fun hex _ => ?_⟩
    obtain ⟨s, hs, hty⟩ := hex
    exact absurd hty (hnofocus s hs)
  | cons c cs =>
    have hbest_mem : maxByEndKey st c cs ∈ st.recent_sessions ∧
        (maxByEndKey st c cs).type = ty := by
      have h := maxByEndKey_mem st c cs
      rw [← hL] at h
      exact (hmem_filter _).mp h
    have hlast : st.last_session_of_type ty = some (maxByEndKey st c cs) := by
      unfold LifeState.last_session_of_type
      rw [hL]
    refine ⟨?_, ?_, ?_⟩
    · intro hall
      have hend : (maxByEndKey st c cs).ended_at = none :=
        hall _ hbest_mem.1 hbest_mem.2
      unfold LifeState.minutes_since_last_session
      rw [hlast]
      simp [hend]
    · intro hex hbefore
      obtain ⟨u, hu, huty, hunone⟩ := hex
      have huf : u ∈ c :: cs := by
        rw [← hL]
        exact (hmem_filter u).mpr ⟨hu, huty⟩
      have hukey : sessionKey st u = st.timestamp := by
        unfold sessionKey
        rw [hunone]
        rfl
      have hge := maxByEndKey_key_ge st c cs u huf
      rw [hukey] at hge
      have hbnone : (maxByEndKey st c cs).ended_at = none := by
        cases hb : (maxByEndKey st c cs).ended_at with
        | none => rfl
        | some e =>
          have hkey : sessionKey st (maxByEndKey st c cs) = e := by
            unfold sessionKey
            rw [hb]
            rfl
          have : e < st.timestamp :=
            hbefore _ hbest_mem.1 hbest_mem.2 e hb
          rw [hkey] at hge
          exact absurd hge (not_le.mpr this)
      unfold LifeState.minutes_since_last_session
      rw [hlast]
      simp [hbnone]
    · intro _ hall
      cases hb : (maxByEndKey st c cs).ended_at with
      | none => exact absurd hb (hall _ hbest_mem.1 hbest_mem.2)
      | some e =>
        refine ⟨e, ?_, ⟨_, hbest_mem.1, hbest_mem.2, hb⟩, ?_, ?_⟩
        · unfold LifeState.minutes_since_last_session
          rw [hlast]
          simp [hb]
        · intro s hs hty e2 he2
          have hsf : s ∈ c :: cs := by
            rw [← hL]
            exact (hmem_filter s).mpr ⟨hs, hty⟩
          have hge := maxByEndKey_key_ge st c cs s hsf
          have h1 : sessionKey st s = e2 := by
            unfold sessionKey
            rw [he2]
            rfl
          have h2 : sessionKey st (maxByEndKey st c cs) = e := by
            unfold sessionKey
            rw [hb]
            rfl
          rw [h1, h2] at hge
          exact hge
        · intro hle
          exact Int.fdiv_nonneg (by omega) (by omega)

/-- Witness for the amended C1 at `c1wit` (two completed focus sessions):
the all-sessions-ended clause applies with latest end 520 at state time 1000,
giving 8 minutes. -/
theorem C1_minutes_since_last_session_witness :
    ∃ e, c1wit.minutes_since_last_session "focus"
        = some ((c1wit.timestamp - e).fdiv 60) ∧
      (∃ s ∈ c1wit.recent_sessions, s.type = "focus" ∧ s.ended_at = some e) ∧
      (∀ s ∈ c1wit.recent_sessions, s.type = "focus" → ∀ e2, s.ended_at = some e2 →
        e2 ≤ e) ∧
      (e ≤ c1wit.timestamp → 0 ≤ (c1wit.timestamp - e).fdiv 60) :=
  (C1_minutes_since_last_session c1wit "focus").2.2
    ⟨{ type := "focus", project := some "P", duration_min := 10,
       completed := true, ended_at := some 400 }, List.mem_cons_self _ _, rfl⟩
    (by decide)

/-- When all of `suggest`'s preconditions hold it returns exactly the
tier-determined suggestion. -/
theorem suggest_success (n : FocusNeuron) (state : LifeState) (p : String)
    (hmode : state.mode = "work_deep") (hpp : state.primary_project = some p)
    (hne : p ≠ "")
    (hgap : ∀ m, state.minutes_since_last_session "focus" = some m →
      n.min_gap_between_focus_min ≤ m) :
    n.suggest state = some
      { neuron := "FocusNeuron"
        priority := (focusTier n (energyOf state)).2.1
        suggestion_type := "focus_block"
        text := (focusTier n (energyOf state)).2.2.2 ++ " " ++ p ++
          ": pick one small concrete subtask and work on it for " ++
          toString (focusTier n (energyOf state)).1 ++ " minutes."
        expected_duration_min := (focusTier n (energyOf state)).1
        project := some p
        confidence := (focusTier n (energyOf state)).2.2.1 } := by
  have hgate : (match state.minutes_since_last_session "focus" with
      | some m => decide (m < n.min_gap_between_focus_min)
      | none => false) = false := by
    cases hmin : state.minutes_since_last_session "focus" with
    | none => rfl
    | some m =>
      simp only [decide_eq_false_iff_not, not_lt]
      exact hgap m hmin
  unfold FocusNeuron.suggest
  rw [if_neg (by simp [hmode])]
  rw [hpp]
  dsimp only
  rw [if_neg hne, hgate]
  rfl

/-- Every returned suggestion carries the state's primary project. -/
theorem suggest_project (n : FocusNeuron) (state : LifeState)
    (s : NeuronSuggestion) (h : n.suggest state = some s) :
    s.project = state.primary_project ∧
    s.expected_duration_min = (focusTier n (energyOf state)).1 := by
  unfold FocusNeuron.suggest at h
  by_cases hmode : state.mode ≠ "work_deep"
  · rw [if_pos hmode] at h
    cases h
  · rw [if_neg hmode] at h
    cases hpp : state.primary_project with
    | none =>
      rw [hpp] at h
      cases h
    | some project =>
      rw [hpp] at h
      dsimp only at h
      by_cases hemp : project = ""
      · rw [if_pos hemp] at h
        cases h
      · rw [if_neg hemp] at h
        by_cases hgate : (match state.minutes_since_last_session "focus" with
            | some m => decide (m < n.min_gap_between_focus_min)
            | none => false) = true
        · rw [if_pos hgate] at h
          cases h
        · rw [if_neg hgate] at h
          cases h
          exact ⟨rfl, rfl⟩

/-- C4: `suggest` returns nothing whenever any precondition fails — the mode
is not "work_deep", or the primary project is unset, or the minutes since the
last focus session are defined and strictly below the configured minimum gap
(whose default is 15 minutes) — for all values of the other state fields. -/
theorem C4_suggest_precondition_failure (n : FocusNeuron) (state : LifeState)
    (h : state.mode ≠ "work_deep" ∨ state.primary_project = none ∨
      ∃ m, state.minutes_since_last_session "focus" = some m ∧
        m < n.min_gap_between_focus_min) :
    n.suggest state = none ∧ ({} : FocusNeuron).min_gap_between_focus_min = 15 := by
  refine ⟨?_, rfl⟩
  rcases h with hm | hpp | ⟨m, hm, hlt⟩
  · simp [FocusNeuron.suggest, hm]
  · simp [FocusNeuron.suggest, hpp]
  · cases hpp2 : state.primary_project with
    | none => simp [FocusNeuron.suggest, hpp2]
    | some project =>
      by_cases hemp : project = ""
      · simp [FocusNeuron.suggest, hpp2, hemp]
      · simp [FocusNeuron.suggest, hpp2, hemp, hm, hlt]

/-- Witness for C4 at a concrete non-deep-work state. -/
theorem C4_suggest_precondition_failure_witness :
    FocusNeuron.suggest {} { sampleState with mode := "walking" } = none ∧
    ({} : FocusNeuron).min_gap_between_focus_min = 15 :=
  C4_suggest_precondition_failure {} { sampleState with mode := "walking" }
    (Or.inl (by decide))


/-- C5 counterexample: `c5cex` is in deep-work mode with a *set* primary
project (the empty string) and no recent focus session, so the claim's
preconditions hold, yet `suggest` returns nothing (the medium tier would
demand a 15-minute HIGH suggestion): Python's truthiness test rejects the
empty string. -/
theorem C5_counterexample :
    c5cex.mode = "work_deep" ∧ c5cex.primary_project ≠ none ∧
    c5cex.minutes_since_last_session "focus" = none ∧
    c5cex.energy_hint = "medium" ∧
    focusNeuronDefault.suggest c5cex = none :=
  ⟨rfl, by decide, rfl, rfl, rfl⟩

/-- C5 as amended: for every LifeState satisfying the Focus generator's
preconditions with the primary project set *to a non-empty name*, `suggest`
returns a suggestion whose duration, priority and confidence follow the
energy tier table (low: 5 min, MEDIUM, 0.70; medium: 15 min, HIGH, 0.80;
high or unknown: 25 min, HIGH, 0.85, with default configuration), whose text
contains the project name and the duration, and whose duration is
monotonically non-increasing as the energy hint goes high, medium, low. -/
theorem C5_suggest_tiers (state : LifeState) (p : String)
    (hmode : state.mode = "work_deep") (hpp : state.primary_project = some p)
    (hne : p ≠ "")
    (hgap : ∀ m, state.minutes_since_last_session "focus" = some m → 15 ≤ m) :
    ∃ s, focusNeuronDefault.suggest state = some s ∧
      (state.energy_hint = "low" →
        s.expected_duration_min = 5 ∧ s.priority = "MEDIUM" ∧ s.confidence = 7/10) ∧
      (state.energy_hint = "medium" →
        s.expected_duration_min = 15 ∧ s.priority = "HIGH" ∧ s.confidence = 4/5) ∧
      (state.energy_hint = "high" ∨ state.energy_hint = "unknown" →
        s.expected_duration_min = 25 ∧ s.priority = "HIGH" ∧ s.confidence = 17/20) ∧
      (∃ pre post, s.text = pre ++ p ++ post) ∧
      (∃ pre post, s.text = pre ++ toString s.expected_duration_min ++ post) ∧
      ∃ dlo dmd dhi : Int,
        (focusNeuronDefault.suggest (withEnergy state "low")).map
          NeuronSuggestion.expected_duration_min = some dlo ∧
        (focusNeuronDefault.suggest (withEnergy state "medium")).map
          NeuronSuggestion.expected_duration_min = some dmd ∧
        (focusNeuronDefault.suggest (withEnergy state "high")).map
          NeuronSuggestion.expected_duration_min = some dhi ∧
        dlo ≤ dmd ∧ dmd ≤ dhi := by
  have hmain := suggest_success focusNeuronDefault state p hmode hpp hne hgap
  refine ⟨_, hmain, ?_, ?_, ?_, ?_, ?_, ?_⟩
  · intro he
    have h1 : energyOf state = "low" := by
      unfold energyOf
      rw [he]
      decide
    refine ⟨?_, ?_, ?_⟩ <;> simp [h1, focusTier, focusNeuronDefault]
  · intro he
    have h1 : energyOf state = "medium" := by
      unfold energyOf
      rw [he]
      decide
    refine ⟨?_, ?_, ?_⟩ <;> simp [h1, focusTier, focusNeuronDefault]
  · intro he
    rcases he with he | he
    · have h1 : energyOf state = "high" := by
        unfold energyOf
        rw [he]
        decide
      refine ⟨?_, ?_, ?_⟩ <;> simp [h1, focusTier, focusNeuronDefault]
    · have h1 : energyOf state = "unknown" := by
        unfold energyOf
        rw [he]
        decide
      refine ⟨?_, ?_, ?_⟩ <;> simp [h1, focusTier, focusNeuronDefault]
  · refine ⟨(focusTier focusNeuronDefault (energyOf state)).2.2.2 ++ " ",
      (": pick one small concrete subtask and work on it for " ++
        toString (focusTier focusNeuronDefault (energyOf state)).1) ++
        " minutes.", ?_⟩
    simp [String.append_assoc]
  · exact ⟨(focusTier focusNeuronDefault (energyOf state)).2.2.2 ++ " " ++ p ++
      ": pick one small concrete subtask and work on it for ", " minutes.", rfl⟩
  · have hlow := suggest_success focusNeuronDefault (withEnergy state "low") p
      hmode hpp hne hgap
    have hmed := suggest_success focusNeuronDefault (withEnergy state "medium") p
      hmode hpp hne hgap
    have hhigh := suggest_success focusNeuronDefault (withEnergy state "high") p
      hmode hpp hne hgap
    have e1 : energyOf (withEnergy state "low") = "low" := rfl
    have e2 : energyOf (withEnergy state "medium") = "medium" := rfl
    have e3 : energyOf (withEnergy state "high") = "high" := rfl
    refine ⟨5, 15, 25, ?_, ?_, ?_, by decide, by decide⟩
    · rw [hlow]
      simp [e1, focusTier, focusNeuronDefault]
    · rw [hmed]
      simp [e2, focusTier, focusNeuronDefault]
    · rw [hhigh]
      simp [e3, focusTier, focusNeuronDefault]

/-- Witness for the amended C5 at a concrete deep-work state with a medium
energy hint and no recent sessions. -/
theorem C5_suggest_tiers_witness :
    ∃ s, focusNeuronDefault.suggest c5wit = some s ∧
      (c5wit.energy_hint = "low" →
        s.expected_duration_min = 5 ∧ s.priority = "MEDIUM" ∧ s.confidence = 7/10) ∧
      (c5wit.energy_hint = "medium" →
        s.expected_duration_min = 15 ∧ s.priority = "HIGH" ∧ s.confidence = 4/5) ∧
      (c5wit.energy_hint = "high" ∨ c5wit.energy_hint = "unknown" →
        s.expected_duration_min = 25 ∧ s.priority = "HIGH" ∧ s.confidence = 17/20) ∧
      (∃ pre post, s.text = pre ++ "Project Horizon" ++ post) ∧
      (∃ pre post, s.text = pre ++ toString s.expected_duration_min ++ post) ∧
      ∃ dlo dmd dhi : Int,
        (focusNeuronDefault.suggest (withEnergy c5wit "low")).map
          NeuronSuggestion.expected_duration_min = some dlo ∧
        (focusNeuronDefault.suggest (withEnergy c5wit "medium")).map
          NeuronSuggestion.expected_duration_min = some dmd ∧
        (focusNeuronDefault.suggest (withEnergy c5wit "high")).map
          NeuronSuggestion.expected_duration_min = some dhi ∧
        dlo ≤ dmd ∧ dmd ≤ dhi :=
  C5_suggest_tiers c5wit "Project Horizon" rfl rfl (by decide)
    (fun _ h => Option.noConfusion h)

/-- When a focus block is in progress with an empty pool and the elapsed time
reaches the expected duration, the tick appends the completed session record
and clears the loop variables. -/
theorem tickStep_completes (now : Int) (accepted : Bool) (ls : LoopState)
    (t0 dm : Int) (harb : ls.arbiter = ⟨[]⟩)
    (hfbs : ls.focus_block_started = some t0)
    (hfbd : ls.focus_block_duration_min = some dm)
    (he : 60 * dm ≤ now - t0) :
    tickStep now accepted ls =
      { state := { ls.state.with_updated_timestamp now with
          recent_sessions := ls.state.recent_sessions ++
            [{ type := "focus", project := ls.state.primary_project,
               duration_min := dm, completed := true, ended_at := some now }] }
        arbiter := ⟨[]⟩
        suggested_action := none
        focus_block_started := none
        focus_block_duration_min := none } := by
  obtain ⟨st, arb, sa, fbs, fbd⟩ := ls
  dsimp only at harb hfbs hfbd ⊢
  subst harb hfbs hfbd
  simp only [tickStep, ActionArbiterLife.decide, Option.isNone_some,
    Bool.false_eq_true, if_false]
  rw [if_pos he]
  rfl

/-- When a focus block is in progress with an empty pool and the elapsed time
has not reached the expected duration, the tick only re-stamps the state. -/
theorem tickStep_active_not_done (now : Int) (accepted : Bool) (ls : LoopState)
    (t0 dm : Int) (harb : ls.arbiter = ⟨[]⟩)
    (hfbs : ls.focus_block_started = some t0)
    (hfbd : ls.focus_block_duration_min = some dm)
    (he : ¬ 60 * dm ≤ now - t0) :
    tickStep now accepted ls =
      { state := ls.state.with_updated_timestamp now
        arbiter := ⟨[]⟩
        suggested_action := ls.suggested_action
        focus_block_started := some t0
        focus_block_duration_min := some dm } := by
  obtain ⟨st, arb, sa, fbs, fbd⟩ := ls
  dsimp only at harb hfbs hfbd ⊢
  subst harb hfbs hfbd
  simp only [tickStep, ActionArbiterLife.decide, Option.isNone_some,
    Bool.false_eq_true, if_false]
  rw [if_neg he]

/-- When no focus block is in progress, the pool is empty and the neuron has
no suggestion, the tick only re-stamps the state. -/
theorem tickStep_idle_no_suggestion (now : Int) (accepted : Bool) (ls : LoopState)
    (harb : ls.arbiter = ⟨[]⟩) (hfbs : ls.focus_block_started = none)
    (hsg : focusNeuronDefault.suggest (ls.state.with_updated_timestamp now) = none) :
    tickStep now accepted ls =
      { state := ls.state.with_updated_timestamp now
        arbiter := ⟨[]⟩
        suggested_action := ls.suggested_action
        focus_block_started := none
        focus_block_duration_min := ls.focus_block_duration_min } := by
  obtain ⟨st, arb, sa, fbs, fbd⟩ := ls
  dsimp only at harb hfbs hsg ⊢
  subst harb hfbs
  simp only [tickStep, ActionArbiterLife.decide, Option.isNone_none, if_true, hsg]

/-- When no focus block is in progress, the pool is empty, the neuron
suggests `s` and the HUD rejects, the decision is discarded. -/
theorem tickStep_idle_reject (now : Int) (ls : LoopState) (s : NeuronSuggestion)
    (harb : ls.arbiter = ⟨[]⟩) (hfbs : ls.focus_block_started = none)
    (hsg : focusNeuronDefault.suggest (ls.state.with_updated_timestamp now)
      = some s) :
    tickStep now false ls =
      { state := ls.state.with_updated_timestamp now
        arbiter := ⟨[]⟩
        suggested_action := none
        focus_block_started := none
        focus_block_duration_min := ls.focus_block_duration_min } := by
  obtain ⟨st, arb, sa, fbs, fbd⟩ := ls
  dsimp only at harb hfbs hsg ⊢
  subst harb hfbs
  simp only [tickStep, ActionArbiterLife.decide, ActionArbiterLife.request_action,
    Option.isNone_none, if_true, hsg]
  rfl

/-- When no focus block is in progress, the pool is empty, the neuron
suggests `s`, the HUD accepts and the (degenerate) block is not yet complete,
the tick starts the focus block and keeps the accepted decision. -/
theorem tickStep_idle_accept (now : Int) (ls : LoopState) (s : NeuronSuggestion)
    (harb : ls.arbiter = ⟨[]⟩) (hfbs : ls.focus_block_started = none)
    (hsg : focusNeuronDefault.suggest (ls.state.with_updated_timestamp now)
      = some s)
    (he : ¬ 60 * s.expected_duration_min ≤ now - now) :
    tickStep now true ls =
      { state := ls.state.with_updated_timestamp now
        arbiter := ⟨[]⟩
        suggested_action := some
          { binding_id := isoformat now ++ "_" ++ s.suggestion_type
            suggestion := s }
        focus_block_started := some now
        focus_block_duration_min := some s.expected_duration_min } := by
  obtain ⟨st, arb, sa, fbs, fbd⟩ := ls
  dsimp only at harb hfbs hsg ⊢
  subst harb hfbs
  simp only [tickStep, ActionArbiterLife.decide, ActionArbiterLife.request_action,
    Option.isNone_none, if_true, hsg, List.nil_append, bestOf, List.foldl_nil]
  rw [if_neg he]
  rfl

/-- Degenerate same-tick completion: the accepted block has non-positive
duration, so it completes in the accepting tick itself. -/
theorem tickStep_idle_accept_done (now : Int) (ls : LoopState)
    (s : NeuronSuggestion)
    (harb : ls.arbiter = ⟨[]⟩) (hfbs : ls.focus_block_started = none)
    (hsg : focusNeuronDefault.suggest (ls.state.with_updated_timestamp now)
      = some s)
    (he : 60 * s.expected_duration_min ≤ now - now) :
    tickStep now true ls =
      { state := { ls.state.with_updated_timestamp now with
          recent_sessions := ls.state.recent_sessions ++
            [{ type := "focus", project := ls.state.primary_project,
               duration_min := s.expected_duration_min, completed := true,
               ended_at := some now }] }
        arbiter := ⟨[]⟩
        suggested_action := none
        focus_block_started := none
        focus_block_duration_min := none } := by
  obtain ⟨st, arb, sa, fbs, fbd⟩ := ls
  dsimp only at harb hfbs hsg ⊢
  subst harb hfbs
  simp only [tickStep, ActionArbiterLife.decide, ActionArbiterLife.request_action,
    Option.isNone_none, if_true, hsg, List.nil_append, bestOf, List.foldl_nil]
  rw [if_pos he]
  rfl

/-- One tick preserves the loop invariant. -/
theorem loopInv_tickStep (now : Int) (accepted : Bool) (ls : LoopState)
    (h : LoopInv ls) : LoopInv (tickStep now accepted ls) := by
  obtain ⟨hp, harb, hlink⟩ := h
  cases hfbs : ls.focus_block_started with
  | some t0 =>
    obtain ⟨a, hsa, hproj, hfbd⟩ := hlink t0 hfbs
    by_cases he : 60 * a.suggestion.expected_duration_min ≤ now - t0
    · rw [tickStep_completes now accepted ls t0 _ harb hfbs hfbd he]
      refine ⟨hp, rfl, ?_⟩
      intro t ht
      cases ht
    · rw [tickStep_active_not_done now accepted ls t0 _ harb hfbs hfbd he]
      refine ⟨hp, rfl, ?_⟩
      intro t ht
      exact ⟨a, hsa, hproj, rfl⟩
  | none =>
    cases hsg : focusNeuronDefault.suggest (ls.state.with_updated_timestamp now) with
    | none =>
      rw [tickStep_idle_no_suggestion now accepted ls harb hfbs hsg]
      refine ⟨hp, rfl, ?_⟩
      intro t ht
      cases ht
    | some s =>
      have hsproj : s.project = some "Project Horizon" := by
        have h1 := (suggest_project focusNeuronDefault
          (ls.state.with_updated_timestamp now) s hsg).1
        rw [h1]
        exact hp
      cases accepted with
      | false =>
        rw [tickStep_idle_reject now ls s harb hfbs hsg]
        refine ⟨hp, rfl, ?_⟩
        intro t ht
        cases ht
      | true =>
        by_cases he : 60 * s.expected_duration_min ≤ now - now
        · rw [tickStep_idle_accept_done now ls s harb hfbs hsg he]
          refine ⟨hp, rfl, ?_⟩
          intro t ht
          cases ht
        · rw [tickStep_idle_accept now ls s harb hfbs hsg he]
          refine ⟨hp, rfl, ?_⟩
          intro t ht
          exact ⟨_, rfl, hsproj, rfl⟩

/-- The loop invariant is preserved along any input trace. -/
theorem loopInv_foldl (inputs : List (Int × Bool)) :
    ∀ ls : LoopState, LoopInv ls →
      LoopInv (inputs.foldl (fun a p => tickStep p.1 p.2 a) ls) := by
  induction inputs with
  | nil => exact fun ls h => h
  | cons p rest ih =>
    intro ls h
    exact ih _ (loopInv_tickStep p.1 p.2 ls h)

/-- Every state the test-mode loop reaches satisfies the loop invariant. -/
theorem loopInv_runTicks (start : Int) (inputs : List (Int × Bool)) :
    LoopInv (runTicks start inputs) := by
  have h0 : LoopInv (initLoopState start) := by
    refine ⟨rfl, rfl, ?_⟩
    intro t0 h
    cases h
  exact loopInv_foldl inputs _ h0

/-- C2: at every state the test-mode tick loop can reach, whenever a focus
action is in progress and the elapsed minutes since its start reach its
expected duration, the next tick appends exactly one completed session record
of type "focus" whose project and duration come from the winning decision
(the retained accepted SuggestedAction) and whose end timestamp is the tick
time, and clears the action-in-progress variables. -/
theorem C2_tick_completion (start now : Int) (inputs : List (Int × Bool))
    (accepted : Bool) (t0 d : Int)
    (hs : (runTicks start inputs).focus_block_started = some t0)
    (hd : (runTicks start inputs).focus_block_duration_min = some d)
    (he : 60 * d ≤ now - t0) :
    ∃ a, (runTicks start inputs).suggested_action = some a ∧
      a.suggestion.expected_duration_min = d ∧
      (tickStep now accepted (runTicks start inputs)).state.recent_sessions =
        (runTicks start inputs).state.recent_sessions ++
          [{ type := "focus", project := a.suggestion.project,
             duration_min := d, completed := true, ended_at := some now }] ∧
      (tickStep now accepted (runTicks start inputs)).focus_block_started
        = none ∧
      (tickStep now accepted (runTicks start inputs)).focus_block_duration_min
        = none ∧
      (tickStep now accepted (runTicks start inputs)).suggested_action = none := by
  obtain ⟨hp, harb, hlink⟩ := loopInv_runTicks start inputs
  obtain ⟨a, hsa, hproj, hfbd⟩ := hlink t0 hs
  have hda : a.suggestion.expected_duration_min = d := by
    rw [hd] at hfbd
    injection hfbd with h1
    exact h1.symm
  have hstep := tickStep_completes now accepted (runTicks start inputs) t0 d
    harb hs hd he
  refine ⟨a, hsa, hda, ?_, ?_, ?_, ?_⟩
  · rw [hstep]
    dsimp only
    rw [hproj, hp]
  · rw [hstep]
  · rw [hstep]
  · rw [hstep]

/-- Witness for C2: run one tick at time 0 with acceptance (the medium tier
starts a 15-minute block), then complete it at time 900 s. -/
theorem C2_tick_completion_witness :
    ∃ a, (runTicks 0 [(0, true)]).suggested_action = some a ∧
      a.suggestion.expected_duration_min = 15 ∧
      (tickStep 900 true (runTicks 0 [(0, true)])).state.recent_sessions =
        (runTicks 0 [(0, true)]).state.recent_sessions ++
          [{ type := "focus", project := a.suggestion.project,
             duration_min := 15, completed := true, ended_at := some 900 }] ∧
      (tickStep 900 true (runTicks 0 [(0, true)])).focus_block_started = none ∧
      (tickStep 900 true (runTicks 0 [(0, true)])).focus_block_duration_min
        = none ∧
      (tickStep 900 true (runTicks 0 [(0, true)])).suggested_action = none :=
  C2_tick_completion 0 900 [(0, true)] true 0 15 rfl rfl (by decide)
